import Mathlib

/-!
Shallow embedding of `src/tubearchivist/home/src/es/connect.py`:
the `ElasticWrap` HTTP client and the `IndexPaginate` exhaustive scanner.

The HTTP transport (`requests`) and the Elasticsearch store are external
collaborators.  The client methods are parametrised by a response function
`http : HttpRequest → Response`; the scanner is parametrised by an abstract
store state `ESIndex` (the documents of the target index in store-native
order, plus the PIT id the store would hand out).  Each embedded operation
returns, besides its result, the list of requests it issued, so that the
call-trace claims can be stated.
-/

/-- Python values passed as the `data` argument of the client methods:
`False`, `None`, a dict, or a string (the ndjson bulk payload case).
Only truthiness and serialised shape matter to the client. -/
inductive PyData
  | false_
  | none_
  | dict (entries : List (String × String))
  | str (s : String)
deriving DecidableEq, Repr

/-- Python truthiness of a `PyData` value (`if data:`). -/
def PyData.truthy : PyData → Bool
  | .false_ => false
  | .none_ => false
  | .dict es => !es.isEmpty
  | .str s => !(s == "")

/-- Abstraction of `json.dumps` (nested values abstracted to strings;
only the serialised body string matters to the transport layer). -/
def jsonDumps : PyData → String
  | .false_ => "false"
  | .none_ => "null"
  | .str s => "\"" ++ s ++ "\""
  | .dict es =>
      "\x7b" ++ String.intercalate ", "
        (es.map fun kv => "\"" ++ kv.1 ++ "\": \"" ++ kv.2 ++ "\"") ++ "\x7d"

/-- The raw payload used on the ndjson branch of `post` (the Python code
passes the object through unserialised; callers pass a string there). -/
def pyDataRaw : PyData → String
  | .str s => s
  | d => jsonDumps d

/-- Process environment as read by the `ElasticWrap` class attributes:
`os.environ.get` returns `None` for an unset variable. -/
structure ESEnv where
  es_url : Option String
  elastic_password : Option String
  elastic_user : Option String
deriving DecidableEq, Repr

/-- Class attribute `ES_URL: str = str(os.environ.get("ES_URL"))` — `str(None)` is `"None"`. -/
def ESEnv.ES_URL (e : ESEnv) : String := e.es_url.getD "None"

/-- Class attribute `ES_PASS: str = str(os.environ.get("ELASTIC_PASSWORD"))`. -/
def ESEnv.ES_PASS (e : ESEnv) : String := e.elastic_password.getD "None"

/-- Class attribute `ES_USER: str = str(os.environ.get("ELASTIC_USER") or "elastic")` —
`or` replaces both `None` and the empty string by `"elastic"`. -/
def ESEnv.ES_USER (e : ESEnv) : String :=
  match e.elastic_user with
  | none => "elastic"
  | some u => if u = "" then "elastic" else u

/-- One HTTP request as handed to the `requests` library: verb, URL,
optional body (`none` = bodyless call), extra headers, basic-auth pair,
and the explicit timeout when one is passed. -/
structure HttpRequest where
  method : String
  url : String
  body : Option String
  headers : List (String × String)
  auth : String × String
  timeout : Option Nat
deriving DecidableEq, Repr

/-- An HTTP response; `text` doubles as the parsed JSON body (the client
returns `response.json()`, abstracted to the body string). -/
structure Response where
  text : String
  status : Nat
deriving DecidableEq, Repr

/-- The `response.ok` flag of `requests`: status code below 400. -/
def Response.ok (r : Response) : Bool := r.status < 400

/-- The mutable state of an `ElasticWrap` instance: `self.url` and
`self.auth` as set in `__init__`. -/
structure ElasticWrap where
  url : String
  auth : String × String
deriving DecidableEq, Repr

/-- Constructor `ElasticWrap.__init__`: `self.url = f"{self.ES_URL}/{path}"`,
`self.auth = (self.ES_USER, self.ES_PASS)`. -/
def ElasticWrap.init (env : ESEnv) (path : String) : ElasticWrap :=
  { url := env.ES_URL ++ "/" ++ path, auth := (env.ES_USER, env.ES_PASS) }

deriving instance DecidableEq for Except

/-- Everything one client method call produces: the instance state after
the call (`put`/`delete` may mutate `self.url`), the requests issued, the
lines printed, and the result — `.ok (body, status)` for a normal return,
`.error msg` for a raised `ValueError`. -/
structure CallResult where
  self : ElasticWrap
  requests : List HttpRequest
  printed : List String
  result : Except String (String × Nat)
deriving DecidableEq, Repr

/-- Method `ElasticWrap.get(data=False, timeout=10, print_error=True)`. -/
def ElasticWrap.get (self : ElasticWrap) (http : HttpRequest → Response)
    (data : PyData) (timeout : Nat) (print_error : Bool) : CallResult :=
  let req : HttpRequest :=
    if data.truthy then
      { method := "GET", url := self.url, body := some (jsonDumps data),
        headers := [], auth := self.auth, timeout := some timeout }
    else
      { method := "GET", url := self.url, body := none,
        headers := [], auth := self.auth, timeout := some timeout }
  let response := http req
  { self := self, requests := [req],
    printed := if print_error && !response.ok then [response.text] else [],
    result := .ok (response.text, response.status) }

/-- Method `ElasticWrap.post(data=False, ndjson=False)`. -/
def ElasticWrap.post (self : ElasticWrap) (http : HttpRequest → Response)
    (data : PyData) (ndjson : Bool) : CallResult :=
  let headers :=
    if ndjson then [("Content-type", "application/x-ndjson")]
    else [("Content-type", "application/json")]
  let payload := if ndjson then pyDataRaw data else jsonDumps data
  let req : HttpRequest :=
    if data.truthy then
      { method := "POST", url := self.url, body := some payload,
        headers := headers, auth := self.auth, timeout := none }
    else
      { method := "POST", url := self.url, body := none,
        headers := headers, auth := self.auth, timeout := none }
  let response := http req
  { self := self, requests := [req],
    printed := if !response.ok then [response.text] else [],
    result := .ok (response.text, response.status) }

/-- Method `ElasticWrap.put(data, refresh=False)`: `refresh` rewrites `self.url`
in place; a non-ok response prints body and data and raises `ValueError`. -/
def ElasticWrap.put (self : ElasticWrap) (http : HttpRequest → Response)
    (data : PyData) (refresh : Bool) : CallResult :=
  let self := if refresh then { self with url := self.url ++ "/?refresh=true" } else self
  let req : HttpRequest :=
    { method := "PUT", url := self.url, body := some (jsonDumps data),
      headers := [], auth := self.auth, timeout := none }
  let response := http req
  if !response.ok then
    { self := self, requests := [req],
      printed := [response.text, jsonDumps data],
      result := .error "failed to add item to index" }
  else
    { self := self, requests := [req], printed := [],
      result := .ok (response.text, response.status) }

/-- Method `ElasticWrap.delete(data=False, refresh=False)`: same `refresh` URL
mutation as `put`, but a non-ok response only prints and still returns. -/
def ElasticWrap.delete (self : ElasticWrap) (http : HttpRequest → Response)
    (data : PyData) (refresh : Bool) : CallResult :=
  let self := if refresh then { self with url := self.url ++ "/?refresh=true" } else self
  let req : HttpRequest :=
    if data.truthy then
      { method := "DELETE", url := self.url, body := some (jsonDumps data),
        headers := [], auth := self.auth, timeout := none }
    else
      { method := "DELETE", url := self.url, body := none,
        headers := [], auth := self.auth, timeout := none }
  let response := http req
  { self := self, requests := [req],
    printed := if !response.ok then [response.text] else [],
    result := .ok (response.text, response.status) }

/-!
## The `IndexPaginate` scanner

`get_results` drives `ElasticWrap` against the real store.  Here the store
side is the abstract `ESIndex`: the documents of the target index in
store-native order for the effective sort, plus the PIT id the store hands
out on `POST {index}/_pit?keep_alive=10m`.  A search call with payload `p`
returns the first `p.size` documents strictly after the (unique) document
whose sort key equals `p.search_after` — the `search_after` contract,
assuming no concurrent mutation.  Each embedded scanner step also records
the store calls it issues as `ScanEvent`s.
-/

/-- One raw hit of a search response: `_id`-style metadata, the `_source`
document body, and the `sort` key tuple used by `search_after`. -/
structure Hit where
  id : String
  source : String
  sort : List Nat
deriving DecidableEq, Repr

/-- The `query` clause of the payload: the defaulted match-all or a
caller-supplied clause (abstracted). -/
inductive QueryC
  | match_all
  | custom (q : String)
deriving DecidableEq, Repr

/-- The `sort` clause of the payload: the defaulted
`[{"_doc": {"order": "desc"}}]` or a caller-supplied clause (abstracted). -/
inductive SortC
  | docDesc
  | custom (s : String)
deriving DecidableEq, Repr

/-- The query payload dict `self.data`; a `none` field is an absent key. -/
structure Payload where
  query : Option QueryC
  sort : Option SortC
  size : Option Nat
  pit : Option (String × String)
  search_after : Option (List Nat)
deriving DecidableEq, Repr

/-- The empty dict `{}`. -/
def emptyPayload : Payload :=
  { query := none, sort := none, size := none, pit := none, search_after := none }

/-- One element of the result list built by `run_loop`: the full hit
envelope (`keep_source` truthy) or just the `_source` body. -/
inductive ScanItem
  | full (h : Hit)
  | src (s : String)
deriving DecidableEq, Repr

/-- The per-hit append of `run_loop`: `hit` if `keep_source` else
`hit["_source"]`. -/
def itemOf (keep_source : Bool) (h : Hit) : ScanItem :=
  if keep_source then .full h else .src h.source

/-- Python exceptions the scanner can raise, plus the fuel marker that
bounds the embedding of the unbounded `while True` loop (never reached on
the well-formed stores the claims quantify over). -/
inductive PyError
  | typeError
  | zeroDivisionError
  | valueError (msg : String)
  | fuelExhausted
deriving DecidableEq, Repr

/-- The recognized `**kwargs` of `IndexPaginate`; `none` = key absent.
The callback models a class whose instantiation-plus-`run()` on the page's
raw hits and the index name may raise. -/
structure Kwargs where
  size : Option Nat
  keep_source : Bool
  callback : Option (List Hit → String → Except PyError Unit)
  task : Option Unit
  total : Option Nat

/-- Abstract store state: index documents in store-native order (with
their `sort` keys), and the PIT id issued for this scan. -/
structure ESIndex where
  docs : List Hit
  pitId : String

/-- The documents strictly after the (first) document whose sort key is
the cursor; no cursor means the whole index. -/
def searchAfterHits (docs : List Hit) : Option (List Nat) → List Hit
  | none => docs
  | some a => (docs.dropWhile fun h => h.sort != a).drop 1

/-- The hits the store returns for one `GET _search` with payload `data`
(an absent `size` falls back to the store default of 10; `validate_data`
always sets it). -/
def searchResponse (idx : ESIndex) (data : Payload) : List Hit :=
  (searchAfterHits idx.docs data.search_after).take (data.size.getD 10)

/-- Class constant `IndexPaginate.DEFAULT_SIZE`. -/
def IndexPaginate.DEFAULT_SIZE : Nat := 500

/-- Expression `self.kwargs.get("size") or self.DEFAULT_SIZE`: an absent or falsy
(zero) size kwarg falls back to the default. -/
def sizeOrDefault (size : Option Nat) : Nat :=
  match size with
  | none => IndexPaginate.DEFAULT_SIZE
  | some n => if n = 0 then IndexPaginate.DEFAULT_SIZE else n

/-- Method `IndexPaginate.validate_data`: replace a falsy `self.data` by an empty dict,
default the `query` and `sort` keys when absent, then set `size` and
`pit`.  A falsy constructor argument (`None`, `False`, `{}`) is `none`. -/
def IndexPaginate.validate_data (kw : Kwargs) (pit_id : String)
    (data : Option Payload) : Payload :=
  let d := data.getD emptyPayload
  let d := if d.query.isNone then { d with query := some QueryC.match_all } else d
  let d := if d.sort.isNone then { d with sort := some SortC.docDesc } else d
  { d with size := some (sizeOrDefault kw.size), pit := some (pit_id, "10m") }

/-- Python `str.lstrip(chars)`: drop leading characters drawn from the
set `chars`. -/
def pyLstrip (chars : String) (s : String) : String :=
  String.mk (s.data.dropWhile fun c => chars.data.contains c)

/-- Helper for Python `str.title()`: upper-case an alphabetic character
not preceded by one, lower-case the rest. -/
def pyTitleGo : List Char → Bool → List Char
  | [], _ => []
  | c :: cs, prevAlpha =>
      (if c.isAlpha then (if prevAlpha then c.toLower else c.toUpper) else c)
        :: pyTitleGo cs c.isAlpha

/-- Python `str.title()` (ASCII). -/
def pyTitle (s : String) : String := String.mk (pyTitleGo s.data false)

/-- Method `IndexPaginate._notify`: `progress = processed / total` raises
`TypeError` when `total` is `None` and `ZeroDivisionError` when it is 0;
otherwise build the message list and the progress fraction handed to
`task.send_progress`. -/
def IndexPaginate._notify (kw : Kwargs) (index_name : String)
    (processed : Nat) : Except PyError (List String × ℚ) :=
  match kw.total with
  | none => .error .typeError
  | some total =>
      if total = 0 then .error .zeroDivisionError
      else
        let progress : ℚ := (processed : ℚ) / (total : ℚ)
        let index_clean := pyTitle (pyLstrip "ta_" index_name)
        .ok ([s!"Processing {index_clean}s {processed}/{total}"], progress)

/-- A store call issued during `get_results`, with the response hits for
search calls and the progress notification content for `_notify`. -/
inductive ScanEvent
  | pitOpen (path : String)
  | searchCall (data : Payload) (hits : List Hit)
  | progressSent (message : List String) (progress : ℚ)
  | pitClose (pit_id : String)
deriving DecidableEq, Repr

/-- The search calls of a trace: payload snapshot at call time plus the
hits returned. -/
def searchEvents (evs : List ScanEvent) : List (Payload × List Hit) :=
  evs.filterMap fun e =>
    match e with
    | .searchCall p hs => some (p, hs)
    | _ => none

/-- Number of `GET _search` calls in a trace. -/
def numSearchCalls (evs : List ScanEvent) : Nat := (searchEvents evs).length

/-- Number of PIT-open calls in a trace. -/
def numPitOpen (evs : List ScanEvent) : Nat :=
  (evs.filter fun e => match e with | .pitOpen _ => true | _ => false).length

/-- Number of PIT-close (`DELETE _pit`) calls in a trace. -/
def numPitClose (evs : List ScanEvent) : Nat :=
  (evs.filter fun e => match e with | .pitClose _ => true | _ => false).length

/-- Expression `all_hits[-1]["sort"]` as a total function (the loop only reads it on
a non-empty page). -/
def lastSortD (l : List Hit) : List Nat := (l.getLast?.map Hit.sort).getD []

/-- The side effects of one loop iteration after the appends, in source
order: the callback call (which may raise), then the `task` progress
notification computed by `_notify` on `len(all_results)`. -/
def stepEffects (kw : Kwargs) (index_name : String) (all_hits : List Hit)
    (processed : Nat) : Except PyError (Option (List String × ℚ)) :=
  match (match kw.callback with
         | some cb => cb all_hits index_name
         | none => Except.ok ()) with
  | .error e => .error e
  | .ok _ =>
      match kw.task with
      | none => .ok none
      | some _ => (IndexPaginate._notify kw index_name processed).map some

/-- Method `IndexPaginate.run_loop`, fuelled: each iteration issues one search,
breaks on an empty page, otherwise appends the page (per `keep_source`),
runs the callback, notifies the task, and overwrites `search_after` with
the last hit's sort key.  Fuel exhaustion stands in for the unbounded
`while True` and is never reached on the stores the claims assume. -/
def run_loop_go (idx : ESIndex) (kw : Kwargs) (index_name : String) :
    Nat → Payload → List ScanItem → Nat →
    List ScanEvent × Except PyError (List ScanItem)
  | 0, _, _, _ => ([], .error .fuelExhausted)
  | fuel + 1, data, all_results, counter =>
    let all_hits := searchResponse idx data
    let ev := ScanEvent.searchCall data all_hits
    if all_hits.isEmpty then
      ([ev], .ok all_results)
    else
      let all_results2 := all_results ++ all_hits.map (itemOf kw.keep_source)
      match stepEffects kw index_name all_hits all_results2.length with
      | .error e => ([ev], .error e)
      | .ok nev =>
          let nevs := match nev with
                      | none => []
                      | some mp => [ScanEvent.progressSent mp.1 mp.2]
          let data2 := { data with search_after := some (lastSortD all_hits) }
          let rest := run_loop_go idx kw index_name fuel data2 all_results2 (counter + 1)
          (ev :: (nevs ++ rest.1), rest.2)

/-- Method `IndexPaginate.get_results`: `get_pit` (one PIT-open call, pit id from
the store), `validate_data`, `run_loop`, then `clean_pit` (one `DELETE
_pit` call).  There is no `try`/`finally`: when `run_loop` raises, the
exception propagates and `clean_pit` is never reached. -/
def IndexPaginate.get_results (idx : ESIndex) (index_name : String)
    (data : Option Payload) (kw : Kwargs) :
    List ScanEvent × Except PyError (List ScanItem) :=
  let opened := ScanEvent.pitOpen (index_name ++ "/_pit?keep_alive=10m")
  let data2 := IndexPaginate.validate_data kw idx.pitId data
  match run_loop_go idx kw index_name (idx.docs.length + 1) data2 [] 0 with
  | (evs, .ok all_results) =>
      (opened :: evs ++ [ScanEvent.pitClose idx.pitId], .ok all_results)
  | (evs, .error e) => (opened :: evs, .error e)

/-!
## Store-model lemmas

`searchAfterHits` returns a suffix of the index, and — when the sort keys
are pairwise distinct, the well-formedness the spec's "no concurrent
mutation" assumption grants — the cursor taken from the last hit of a page
resumes exactly after that page.
-/

lemma searchAfterHits_nil (c : Option (List Nat)) : searchAfterHits [] c = [] := by
  cases c <;> rfl

lemma searchAfterHits_suffix (docs : List Hit) (c : Option (List Nat)) :
    searchAfterHits docs c <:+ docs := by
  cases c with
  | none => exact List.suffix_refl docs
  | some a =>
      exact List.IsSuffix.trans (List.drop_suffix 1 _) (List.dropWhile_suffix _)

lemma searchAfterHits_eq_of_nodup (l1 l2 : List Hit) (x : Hit)
    (h : ((l1 ++ x :: l2).map Hit.sort).Nodup) :
    searchAfterHits (l1 ++ x :: l2) (some x.sort) = l2 := by
  induction l1 with
  | nil =>
      simp only [List.nil_append, searchAfterHits, List.dropWhile_cons]
      simp
  | cons a l1 ih =>
      have hx : x.sort ∈ (l1 ++ x :: l2).map Hit.sort :=
        List.mem_map_of_mem _ (by simp)
      have hcons : a.sort ∉ (l1 ++ x :: l2).map Hit.sort ∧
          ((l1 ++ x :: l2).map Hit.sort).Nodup := by
        simpa using h
      have ha : (a.sort != x.sort) = true := by
        simp only [bne_iff_ne, ne_eq]
        intro hax
        exact hcons.1 (hax ▸ hx)
      simp only [List.cons_append, searchAfterHits, List.dropWhile_cons, ha]
      exact ih hcons.2

lemma lastSortD_eq (l : List Hit) (h : l ≠ []) :
    lastSortD l = (l.getLast h).sort := by
  simp [lastSortD, List.getLast?_eq_getLast l h]

lemma lastSortD_concat (l : List Hit) (x : Hit) :
    lastSortD (l ++ [x]) = x.sort := by
  simp [lastSortD]

lemma step_cursor (docs R : List Hit) (p : Nat) (hp : 0 < p)
    (hsuf : R <:+ docs) (hnd : (docs.map Hit.sort).Nodup) (hR : R ≠ []) :
    searchAfterHits docs (some (lastSortD (R.take p))) = R.drop p := by
  obtain ⟨l1, rfl⟩ := hsuf
  have hpage : R.take p ≠ [] := by
    cases R with
    | nil => exact absurd rfl hR
    | cons a l =>
        cases p with
        | zero => exact absurd hp (by omega)
        | succ q => simp [List.take_succ_cons]
  obtain ⟨pre, x, hx⟩ : ∃ pre x, R.take p = pre ++ [x] :=
    ⟨(R.take p).dropLast, (R.take p).getLast hpage,
      (List.dropLast_append_getLast hpage).symm⟩
  have hdocs : l1 ++ R = (l1 ++ pre) ++ (x :: R.drop p) := by
    conv_lhs => rw [← List.take_append_drop p R]
    rw [hx]
    simp
  rw [hdocs] at hnd
  rw [hx, lastSortD_concat, hdocs]
  exact searchAfterHits_eq_of_nodup _ _ _ hnd

/-- Ceiling division `⌈n / p⌉`. -/
def natCeilDiv (n p : Nat) : Nat := (n + p - 1) / p

lemma natCeilDiv_zero (p : Nat) : natCeilDiv 0 p = 0 := by
  unfold natCeilDiv
  rcases Nat.eq_zero_or_pos p with h | h
  · subst h; rfl
  · exact Nat.div_eq_of_lt (by omega)

lemma natCeilDiv_sub (p m : Nat) (hp : 0 < p) (hm : 0 < m) :
    natCeilDiv m p = natCeilDiv (m - p) p + 1 := by
  unfold natCeilDiv
  rcases Nat.le_total m p with h | h
  · have h0 : m - p = 0 := by omega
    rw [h0]
    have h1 : (0 + p - 1) / p = 0 := Nat.div_eq_of_lt (by omega)
    have h2 : (m + p - 1) / p = 1 :=
      Nat.div_eq_of_lt_le (by omega) (by omega)
    rw [h1, h2]
  · have h1 : m + p - 1 = (m - p + p - 1) + p := by omega
    rw [h1, Nat.add_div_right _ hp]

/-- The sizes of the hit pages returned by the successive search calls of
a scan over `n` documents with page size `p`: `⌈n/p⌉` non-empty pages
followed by the empty page that terminates the loop. -/
def pageSizes (p n : Nat) : List Nat :=
  ((List.range (natCeilDiv n p)).map fun i => min p (n - i * p)) ++ [0]

lemma pageSizes_zero (p : Nat) : pageSizes p 0 = [0] := by
  simp [pageSizes, natCeilDiv_zero]

lemma pageSizes_pos (p m : Nat) (hp : 0 < p) (hm : 0 < m) :
    pageSizes p m = min p m :: pageSizes p (m - p) := by
  unfold pageSizes
  rw [natCeilDiv_sub p m hp hm, List.range_succ_eq_map, List.map_cons,
    List.map_map]
  simp only [Nat.zero_mul, Nat.sub_zero, List.cons_append]
  congr 2
  apply List.map_congr_left
  intro i _
  simp only [Function.comp_apply, Nat.succ_mul]
  congr 1
  omega

/-- The hit pages of the successive search calls of a scan over the
remaining documents `R` with page size `p`: chunks of `p`, closed by the
empty page that terminates the loop.  Fuelled exactly like `run_loop_go`;
with `R.length < fuel` the fuel never runs out. -/
def scanPagesF (p : Nat) : Nat → List Hit → List (List Hit)
  | 0, _ => []
  | _ + 1, [] => [[]]
  | fuel + 1, a :: l => ((a :: l).take p) :: scanPagesF p fuel ((a :: l).drop p)

lemma scanPagesF_length (p : Nat) (hp : 0 < p) :
    ∀ fuel (R : List Hit), R.length < fuel →
      (scanPagesF p fuel R).length = natCeilDiv R.length p + 1 := by
  intro fuel
  induction fuel with
  | zero => intro R h; omega
  | succ n ih =>
      intro R h
      cases R with
      | nil => simp [scanPagesF, natCeilDiv_zero]
      | cons a l =>
          simp only [List.length_cons] at h
          simp only [scanPagesF, List.length_cons]
          rw [ih ((a :: l).drop p)
            (by simp only [List.length_drop, List.length_cons]; omega)]
          rw [List.length_drop, List.length_cons,
            natCeilDiv_sub p (l.length + 1) hp (by omega)]

lemma scanPagesF_sizes (p : Nat) (hp : 0 < p) :
    ∀ fuel (R : List Hit), R.length < fuel →
      (scanPagesF p fuel R).map List.length = pageSizes p R.length := by
  intro fuel
  induction fuel with
  | zero => intro R h; omega
  | succ n ih =>
      intro R h
      cases R with
      | nil => simp [scanPagesF, pageSizes_zero]
      | cons a l =>
          simp only [List.length_cons] at h
          simp only [scanPagesF, List.map_cons]
          rw [ih ((a :: l).drop p)
            (by simp only [List.length_drop, List.length_cons]; omega)]
          rw [List.length_drop, List.length_take, List.length_cons,
            pageSizes_pos p (l.length + 1) hp (by omega)]

/-!
## Run-loop characterization
-/

lemma stepEffects_none (kw : Kwargs) (name : String) (hs : List Hit) (m : Nat)
    (hcb : kw.callback = none) (htask : kw.task = none) :
    stepEffects kw name hs m = .ok none := by
  simp [stepEffects, hcb, htask]

lemma searchResponse_eq (idx : ESIndex) (data : Payload) (p : Nat) (R : List Hit)
    (hsize : data.size = some p)
    (hR : searchAfterHits idx.docs data.search_after = R) :
    searchResponse idx data = R.take p := by
  simp [searchResponse, hsize, hR]

/-- One unfolded step of the loop on a non-empty page, with no callback
and no task configured. -/
lemma run_loop_go_step (idx : ESIndex) (kw : Kwargs) (name : String)
    (fuel : Nat) (data : Payload) (acc : List ScanItem) (cnt : Nat)
    (r : Hit) (t : List Hit)
    (hcb : kw.callback = none) (htask : kw.task = none)
    (hne : searchResponse idx data = r :: t) :
    run_loop_go idx kw name (fuel + 1) data acc cnt =
      (ScanEvent.searchCall data (r :: t) ::
         (run_loop_go idx kw name fuel
            { data with search_after := some (lastSortD (r :: t)) }
            (acc ++ (r :: t).map (itemOf kw.keep_source)) (cnt + 1)).1,
       (run_loop_go idx kw name fuel
          { data with search_after := some (lastSortD (r :: t)) }
          (acc ++ (r :: t).map (itemOf kw.keep_source)) (cnt + 1)).2) := by
  simp only [run_loop_go, hne, stepEffects_none kw name _ _ hcb htask,
    List.isEmpty_cons, Bool.false_eq_true, if_false, List.nil_append]
/-- On a well-formed store (pairwise distinct sort keys) and with no
callback and no task, the fuelled loop consumes all remaining documents:
it returns the accumulator extended by every remaining hit in store order,
and its search calls return exactly the `⌈|R|/p⌉` chunks of size `p`
followed by one empty page. -/
lemma run_loop_go_complete (idx : ESIndex) (kw : Kwargs) (name : String) (p : Nat)
    (hnd : (idx.docs.map Hit.sort).Nodup)
    (hcb : kw.callback = none) (htask : kw.task = none) (hp : 0 < p) :
    ∀ fuel (data : Payload) (acc : List ScanItem) (cnt : Nat),
      data.size = some p →
      (searchAfterHits idx.docs data.search_after).length < fuel →
      (run_loop_go idx kw name fuel data acc cnt).2 =
        .ok (acc ++ (searchAfterHits idx.docs data.search_after).map
          (itemOf kw.keep_source))
      ∧ ((searchEvents (run_loop_go idx kw name fuel data acc cnt).1).map
          fun x => x.2) =
        scanPagesF p fuel (searchAfterHits idx.docs data.search_after) := by
  intro fuel
  induction fuel with
  | zero => intro data acc cnt hsize hlt; omega
  | succ fuel ih =>
      intro data acc cnt hsize hlt
      have hresp := searchResponse_eq idx data p
        (searchAfterHits idx.docs data.search_after) hsize rfl
      cases hRc : searchAfterHits idx.docs data.search_after with
      | nil =>
          rw [hRc] at hresp
          simp only [List.take_nil] at hresp
          simp [run_loop_go, hresp, hRc, searchEvents, scanPagesF]
      | cons r R' =>
          rw [hRc] at hresp hlt
          obtain ⟨q, rfl⟩ : ∃ q, p = q + 1 := ⟨p - 1, by omega⟩
          have hne : searchResponse idx data = r :: R'.take q := by
            rw [hresp, List.take_succ_cons]
          have hcur : searchAfterHits idx.docs
              (some (lastSortD (r :: R'.take q))) = R'.drop q := by
            rw [← List.take_succ_cons, ← List.drop_succ_cons (n := q) (a := r)]
            refine step_cursor idx.docs (r :: R') (q + 1) (by omega) ?_ hnd (by simp)
            rw [← hRc]
            exact searchAfterHits_suffix idx.docs data.search_after
          have ihr := ih (Payload.mk data.query data.sort data.size data.pit
              (some (lastSortD (r :: R'.take q))))
            (acc ++ (r :: R'.take q).map (itemOf kw.keep_source)) (cnt + 1)
            (by simpa using hsize) (by simp only [hcur]; simp only [List.length_drop,
              List.length_cons] at hlt ⊢; omega)
          simp only [hcur] at ihr
          rw [run_loop_go_step idx kw name fuel data acc cnt r (R'.take q) hcb htask hne]
          constructor
          · rw [ihr.1]
            have hsplit : (r :: R'.take q).map (itemOf kw.keep_source) ++
                (R'.drop q).map (itemOf kw.keep_source) = (r :: R').map (itemOf kw.keep_source) := by
              rw [← List.map_append]
              rw [show r :: R'.take q ++ R'.drop q = r :: R' from by
                rw [List.cons_append, List.take_append_drop]]
            rw [List.append_assoc, hsplit]
          · simp only [searchEvents, List.filterMap_cons]
            rw [show scanPagesF (q + 1) (fuel + 1) (r :: R') =
              ((r :: R').take (q + 1)) :: scanPagesF (q + 1) fuel ((r :: R').drop (q + 1))
              from rfl]
            simp only [List.map_cons]
            rw [List.take_succ_cons, List.drop_succ_cons]
            rw [← ihr.2]
            rfl

@[simp] lemma searchEvents_nil : searchEvents [] = [] := rfl

@[simp] lemma searchEvents_cons_search (p : Payload) (hs : List Hit) (l : List ScanEvent) :
    searchEvents (ScanEvent.searchCall p hs :: l) = (p, hs) :: searchEvents l := rfl

@[simp] lemma searchEvents_cons_progress (m : List String) (q : ℚ) (l : List ScanEvent) :
    searchEvents (ScanEvent.progressSent m q :: l) = searchEvents l := rfl

@[simp] lemma searchEvents_cons_pitOpen (s : String) (l : List ScanEvent) :
    searchEvents (ScanEvent.pitOpen s :: l) = searchEvents l := rfl

@[simp] lemma searchEvents_cons_pitClose (s : String) (l : List ScanEvent) :
    searchEvents (ScanEvent.pitClose s :: l) = searchEvents l := rfl

@[simp] lemma searchEvents_append (l1 l2 : List ScanEvent) :
    searchEvents (l1 ++ l2) = searchEvents l1 ++ searchEvents l2 := by
  simp [searchEvents, List.filterMap_append]

lemma sizeOrDefault_pos (s : Option Nat) : 0 < sizeOrDefault s := by
  cases s with
  | none => simp [sizeOrDefault, IndexPaginate.DEFAULT_SIZE]
  | some n =>
      simp only [sizeOrDefault, IndexPaginate.DEFAULT_SIZE]
      split <;> omega

/-- The loop itself issues no PIT-open and no PIT-close call: those happen
only in `get_pit` and `clean_pit`. -/
lemma run_loop_go_no_pit (idx : ESIndex) (kw : Kwargs) (name : String) :
    ∀ fuel data acc cnt,
      numPitOpen (run_loop_go idx kw name fuel data acc cnt).1 = 0 ∧
      numPitClose (run_loop_go idx kw name fuel data acc cnt).1 = 0 := by
  intro fuel
  induction fuel with
  | zero => intro data acc cnt; simp [run_loop_go, numPitOpen, numPitClose]
  | succ fuel ih =>
      intro data acc cnt
      simp only [run_loop_go]
      split
      · simp [numPitOpen, numPitClose]
      · split
        · simp [numPitOpen, numPitClose]
        · rename_i nev _
          cases nev with
          | none =>
              simpa [numPitOpen, numPitClose, List.filter_append]
                using ih _ _ _
          | some mp =>
              simpa [numPitOpen, numPitClose, List.filter_append]
                using ih _ _ _

/-- The loop only ever rewrites `search_after` in the payload: the `pit`,
`query`, `sort` and `size` entries of every search call's payload are the
ones the loop started from. -/
lemma run_loop_go_payload_inv (idx : ESIndex) (kw : Kwargs) (name : String) :
    ∀ fuel data acc cnt (pl : Payload) (hs : List Hit),
      (pl, hs) ∈ searchEvents (run_loop_go idx kw name fuel data acc cnt).1 →
      pl.pit = data.pit ∧ pl.query = data.query ∧ pl.sort = data.sort ∧
        pl.size = data.size := by
  intro fuel
  induction fuel with
  | zero => intro data acc cnt pl hs h; simp [run_loop_go] at h
  | succ fuel ih =>
      intro data acc cnt pl hs h
      simp only [run_loop_go] at h
      split at h
      · simp at h
        obtain ⟨h1, _⟩ := h
        subst h1
        exact ⟨rfl, rfl, rfl, rfl⟩
      · split at h
        · simp at h
          obtain ⟨h1, _⟩ := h
          subst h1
          exact ⟨rfl, rfl, rfl, rfl⟩
        · rename_i nev _
          cases nev with
          | none =>
              simp only [searchEvents_cons_search, List.nil_append,
                List.mem_cons, Prod.mk.injEq] at h
              rcases h with ⟨h1, _⟩ | h
              · subst h1
                exact ⟨rfl, rfl, rfl, rfl⟩
              · have hfold := ih _ _ _ pl hs h
                exact hfold
          | some mp =>
              simp only [List.singleton_append, searchEvents_cons_search,
                searchEvents_cons_progress, List.mem_cons, Prod.mk.injEq] at h
              rcases h with ⟨h1, _⟩ | h
              · subst h1
                exact ⟨rfl, rfl, rfl, rfl⟩
              · have hfold := ih _ _ _ pl hs h
                exact hfold

/-- Cursor discipline over the search calls of one scan: after every
non-empty page, the next search's payload carries `search_after` equal to
the sort key of that page's last hit. -/
def chainFrom : List (Payload × List Hit) → Bool
  | (_, h1) :: (p2, h2) :: rest =>
      (h1.isEmpty || (p2.search_after == some (lastSortD h1)))
        && chainFrom ((p2, h2) :: rest)
  | _ => true

/-- Trace discipline of the loop, for arbitrary kwargs: the first search
uses the payload the loop started from, every later search resumes after
the previous page's last hit, and a normal return is exactly the
accumulator extended by the concatenation of all returned pages in
store-returned order (shaped per `keep_source`). -/
lemma run_loop_go_trace (idx : ESIndex) (kw : Kwargs) (name : String) :
    ∀ fuel data acc cnt,
      (∀ q hs, (searchEvents (run_loop_go idx kw name fuel data acc cnt).1).head?
          = some (q, hs) → q = data)
      ∧ chainFrom (searchEvents (run_loop_go idx kw name fuel data acc cnt).1) = true
      ∧ ∀ out, (run_loop_go idx kw name fuel data acc cnt).2 = .ok out →
          out = acc ++ ((searchEvents (run_loop_go idx kw name fuel data acc cnt).1).map
            fun x => x.2).flatten.map (itemOf kw.keep_source) := by
  intro fuel
  induction fuel with
  | zero =>
      intro data acc cnt
      refine ⟨?_, ?_, ?_⟩
      · intro q hs h
        simp [run_loop_go] at h
      · simp [run_loop_go, chainFrom]
      · intro out h
        simp [run_loop_go] at h
  | succ fuel ih =>
      intro data acc cnt
      simp only [run_loop_go]
      split
      · rename_i hE
        refine ⟨?_, ?_, ?_⟩
        · intro q hs h
          simp at h
          exact h.1.symm
        · simp [chainFrom]
        · intro out h
          simp at h
          subst h
          rw [List.isEmpty_iff] at hE
          simp [hE]
      · rename_i hE
        split
        · refine ⟨?_, ?_, ?_⟩
          · intro q hs h
            simp at h
            exact h.1.symm
          · simp [chainFrom]
          · intro out h
            simp at h
        · rename_i nev hS
          have ihr := ih (Payload.mk data.query data.sort data.size data.pit
              (some (lastSortD (searchResponse idx data))))
            (acc ++ (searchResponse idx data).map (itemOf kw.keep_source)) (cnt + 1)
          cases nev with
          | none =>
              refine ⟨?_, ?_, ?_⟩
              · intro q hs h
                simp only [List.nil_append, List.singleton_append,
                  searchEvents_cons_search, searchEvents_cons_progress,
                  List.head?_cons, Option.some.injEq, Prod.mk.injEq] at h
                exact h.1.symm
              · simp only [List.nil_append, searchEvents_cons_search]
                cases hrest : searchEvents (run_loop_go idx kw name fuel
                    (Payload.mk data.query data.sort data.size data.pit
                      (some (lastSortD (searchResponse idx data))))
                    (acc ++ (searchResponse idx data).map (itemOf kw.keep_source))
                    (cnt + 1)).1 with
                | nil => rfl
                | cons a t =>
                    obtain ⟨q2, h2⟩ := a
                    have hq2 : q2 = Payload.mk data.query data.sort data.size data.pit
                        (some (lastSortD (searchResponse idx data))) :=
                      ihr.1 q2 h2 (by rw [hrest]; rfl)
                    have hch : chainFrom ((q2, h2) :: t) = true := by
                      rw [← hrest]
                      exact ihr.2.1
                    rw [show chainFrom ((data, searchResponse idx data) :: (q2, h2) :: t) =
                      (((searchResponse idx data).isEmpty ||
                        (q2.search_after == some (lastSortD (searchResponse idx data))))
                        && chainFrom ((q2, h2) :: t)) from rfl]
                    rw [hch, hq2]
                    simp
              · intro out h
                simp only at h
                have hout := ihr.2.2 out h
                simp only [List.nil_append, searchEvents_cons_search, List.map_cons]
                rw [hout]
                simp [List.map_append, List.append_assoc]
          | some mp =>
              refine ⟨?_, ?_, ?_⟩
              · intro q hs h
                simp only [List.nil_append, List.singleton_append,
                  searchEvents_cons_search, searchEvents_cons_progress,
                  List.head?_cons, Option.some.injEq, Prod.mk.injEq] at h
                exact h.1.symm
              · simp only [List.singleton_append, searchEvents_cons_search,
                  searchEvents_cons_progress]
                cases hrest : searchEvents (run_loop_go idx kw name fuel
                    (Payload.mk data.query data.sort data.size data.pit
                      (some (lastSortD (searchResponse idx data))))
                    (acc ++ (searchResponse idx data).map (itemOf kw.keep_source))
                    (cnt + 1)).1 with
                | nil => rfl
                | cons a t =>
                    obtain ⟨q2, h2⟩ := a
                    have hq2 : q2 = Payload.mk data.query data.sort data.size data.pit
                        (some (lastSortD (searchResponse idx data))) :=
                      ihr.1 q2 h2 (by rw [hrest]; rfl)
                    have hch : chainFrom ((q2, h2) :: t) = true := by
                      rw [← hrest]
                      exact ihr.2.1
                    rw [show chainFrom ((data, searchResponse idx data) :: (q2, h2) :: t) =
                      (((searchResponse idx data).isEmpty ||
                        (q2.search_after == some (lastSortD (searchResponse idx data))))
                        && chainFrom ((q2, h2) :: t)) from rfl]
                    rw [hch, hq2]
                    simp
              · intro out h
                simp only at h
                have hout := ihr.2.2 out h
                simp only [List.singleton_append, searchEvents_cons_search,
                  searchEvents_cons_progress, List.map_cons]
                rw [hout]
                simp [List.map_append, List.append_assoc]

/-- Independence lemma: `keep_source` changes only the shape of the accumulated items, never
the control flow: two loops differing only in `keep_source` (and in
accumulators of equal length) issue the same trace and fail identically. -/
lemma run_loop_go_keep_source (idx : ESIndex) (name : String)
    (size : Option Nat) (cb : Option (List Hit → String → Except PyError Unit))
    (task : Option Unit) (total : Option Nat) (b1 b2 : Bool) :
    ∀ fuel data (acc1 acc2 : List ScanItem) cnt, acc1.length = acc2.length →
      (run_loop_go idx (Kwargs.mk size b1 cb task total) name fuel data acc1 cnt).1 =
        (run_loop_go idx (Kwargs.mk size b2 cb task total) name fuel data acc2 cnt).1
      ∧ ∀ e, ((run_loop_go idx (Kwargs.mk size b1 cb task total) name fuel data acc1 cnt).2
            = .error e ↔
          (run_loop_go idx (Kwargs.mk size b2 cb task total) name fuel data acc2 cnt).2
            = .error e) := by
  intro fuel
  induction fuel with
  | zero =>
      intro data acc1 acc2 cnt h
      exact ⟨rfl, fun e => Iff.rfl⟩
  | succ fuel ih =>
      intro data acc1 acc2 cnt h
      have hlen : (acc1 ++ (searchResponse idx data).map
            (itemOf (Kwargs.mk size b1 cb task total).keep_source)).length =
          (acc2 ++ (searchResponse idx data).map
            (itemOf (Kwargs.mk size b2 cb task total).keep_source)).length := by
        simp [h]
      have hse : stepEffects (Kwargs.mk size b1 cb task total) name
            (searchResponse idx data)
            (acc1 ++ (searchResponse idx data).map
              (itemOf (Kwargs.mk size b1 cb task total).keep_source)).length =
          stepEffects (Kwargs.mk size b2 cb task total) name
            (searchResponse idx data)
            (acc2 ++ (searchResponse idx data).map
              (itemOf (Kwargs.mk size b2 cb task total).keep_source)).length := by
        rw [hlen]
        rfl
      simp only [run_loop_go]
      split
      · exact ⟨rfl, fun e => by simp⟩
      · rw [hse]
        cases hS : stepEffects (Kwargs.mk size b2 cb task total) name
            (searchResponse idx data)
            (acc2 ++ (searchResponse idx data).map
              (itemOf (Kwargs.mk size b2 cb task total).keep_source)).length with
        | error e => exact ⟨rfl, fun e2 => Iff.rfl⟩
        | ok nev =>
            have ihr := ih (Payload.mk data.query data.sort data.size data.pit
                (some (lastSortD (searchResponse idx data))))
              (acc1 ++ (searchResponse idx data).map
                (itemOf (Kwargs.mk size b1 cb task total).keep_source))
              (acc2 ++ (searchResponse idx data).map
                (itemOf (Kwargs.mk size b2 cb task total).keep_source))
              (cnt + 1) hlen
            refine ⟨?_, ?_⟩
            · rw [ihr.1]
            · intro e
              exact ihr.2 e

lemma get_results_eq_ok (idx : ESIndex) (name : String) (data : Option Payload)
    (kw : Kwargs) (evs : List ScanEvent) (out : List ScanItem)
    (h : run_loop_go idx kw name (idx.docs.length + 1)
        (IndexPaginate.validate_data kw idx.pitId data) [] 0 = (evs, .ok out)) :
    IndexPaginate.get_results idx name data kw =
      (ScanEvent.pitOpen (name ++ "/_pit?keep_alive=10m") :: evs ++
        [ScanEvent.pitClose idx.pitId], .ok out) := by
  simp [IndexPaginate.get_results, h]

lemma get_results_eq_error (idx : ESIndex) (name : String) (data : Option Payload)
    (kw : Kwargs) (evs : List ScanEvent) (e : PyError)
    (h : run_loop_go idx kw name (idx.docs.length + 1)
        (IndexPaginate.validate_data kw idx.pitId data) [] 0 = (evs, .error e)) :
    IndexPaginate.get_results idx name data kw =
      (ScanEvent.pitOpen (name ++ "/_pit?keep_alive=10m") :: evs, .error e) := by
  simp [IndexPaginate.get_results, h]

lemma validate_data_none (kw : Kwargs) (pit : String) :
    IndexPaginate.validate_data kw pit none =
      Payload.mk (some QueryC.match_all) (some SortC.docDesc)
        (some (sizeOrDefault kw.size)) (some (pit, "10m")) none := rfl

/-- Full characterization of a scan with no callback and no task over a
well-formed store, started with a falsy `data` argument: every document is
returned exactly once in store order, with `⌈N/p⌉ + 1` search calls whose
page sizes are `p, …, p, N mod p, 0` (`p` the effective page size), and
one PIT-open plus one PIT-close. -/
lemma get_results_complete (docs : List Hit) (pid name : String)
    (sz total : Option Nat) (b : Bool)
    (hnd : (docs.map Hit.sort).Nodup) :
    (IndexPaginate.get_results ⟨docs, pid⟩ name none
        (Kwargs.mk sz b none none total)).2 = .ok (docs.map (itemOf b))
    ∧ numSearchCalls (IndexPaginate.get_results ⟨docs, pid⟩ name none
        (Kwargs.mk sz b none none total)).1 =
      natCeilDiv docs.length (sizeOrDefault sz) + 1
    ∧ ((searchEvents (IndexPaginate.get_results ⟨docs, pid⟩ name none
        (Kwargs.mk sz b none none total)).1).map fun x => x.2.length) =
      pageSizes (sizeOrDefault sz) docs.length
    ∧ numPitOpen (IndexPaginate.get_results ⟨docs, pid⟩ name none
        (Kwargs.mk sz b none none total)).1 = 1
    ∧ numPitClose (IndexPaginate.get_results ⟨docs, pid⟩ name none
        (Kwargs.mk sz b none none total)).1 = 1 := by
  have hp := sizeOrDefault_pos sz
  have hrun := run_loop_go_complete ⟨docs, pid⟩ (Kwargs.mk sz b none none total)
    name (sizeOrDefault sz) hnd rfl rfl hp (docs.length + 1)
    (IndexPaginate.validate_data (Kwargs.mk sz b none none total) pid none) [] 0
    rfl (by simp [validate_data_none, searchAfterHits])
  rw [show searchAfterHits (ESIndex.mk docs pid).docs
      (IndexPaginate.validate_data (Kwargs.mk sz b none none total) pid
        none).search_after = docs from rfl] at hrun
  obtain ⟨evs, res, heq⟩ : ∃ evs res, run_loop_go ⟨docs, pid⟩
      (Kwargs.mk sz b none none total) name (docs.length + 1)
      (IndexPaginate.validate_data (Kwargs.mk sz b none none total) pid none)
      [] 0 = (evs, res) := ⟨_, _, rfl⟩
  rw [heq] at hrun
  simp only [List.nil_append] at hrun
  have hnop := run_loop_go_no_pit ⟨docs, pid⟩ (Kwargs.mk sz b none none total)
    name (docs.length + 1)
    (IndexPaginate.validate_data (Kwargs.mk sz b none none total) pid none) [] 0
  rw [heq] at hnop
  have hget := get_results_eq_ok ⟨docs, pid⟩ name none
    (Kwargs.mk sz b none none total) evs (docs.map (itemOf b))
    (by rw [heq, hrun.1])
  rw [hget]
  refine ⟨rfl, ?_, ?_, ?_, ?_⟩
  · simp only [numSearchCalls, searchEvents_cons_pitOpen, searchEvents_append,
      searchEvents_cons_pitClose, searchEvents_nil, List.append_nil]
    have hl : (searchEvents evs).length =
        (((searchEvents evs).map fun x => x.2).length) := by
      rw [List.length_map]
    rw [hl, hrun.2, scanPagesF_length (sizeOrDefault sz) hp _ _ (by omega)]
  · simp only [searchEvents_cons_pitOpen, searchEvents_append,
      searchEvents_cons_pitClose, searchEvents_nil, List.append_nil]
    have h3 : ((searchEvents evs).map fun x => x.2.length) =
        (((searchEvents evs).map fun x => x.2).map List.length) := by
      rw [List.map_map]
      rfl
    rw [h3, hrun.2, scanPagesF_sizes (sizeOrDefault sz) hp _ _ (by omega)]
  · simp only [numPitOpen, List.filter_cons, List.filter_append]
    simp only [numPitOpen] at hnop
    simp [hnop.1]
  · simp only [numPitClose, List.filter_cons, List.filter_append]
    simp only [numPitClose] at hnop
    simp [hnop.2]

/-!
## Concrete fixtures used by witnesses and counterexamples
-/

def envT : ESEnv := ESEnv.mk (some "http://es:9200") (some "pw") none

def wrapT : ElasticWrap := ElasticWrap.init envT "ta_video/_doc/xyz"

def httpOk : HttpRequest → Response := fun _ => Response.mk "ok-body" 200

def httpErr : HttpRequest → Response := fun _ => Response.mk "err-body" 404

def tHits : List Hit := [Hit.mk "a" "sa" [0], Hit.mk "b" "sb" [1], Hit.mk "c" "sc" [2]]

def tIdx : ESIndex := ESIndex.mk tHits "pit-w"

def cbBoom : List Hit → String → Except PyError Unit :=
  fun _ _ => .error (.valueError "boom")

def idxC1 : ESIndex := ESIndex.mk [Hit.mk "v1" "doc1" [0]] "pit-c1"

/-- A 1200-document index with pairwise distinct sort keys. -/
def bigHits : List Hit := (List.range 1200).map fun i => Hit.mk (toString i) (toString i) [i]

/-!
## Claims
-/

/-- C1 (code_bug evidence): `get_results` has no `try`/`finally`, so when
the per-page callback raises on the first page, the exception propagates
and the `DELETE _pit` (PIT close) call is never issued: the trace holds
one PIT-open, one search, and zero PIT-close calls. -/
theorem C1_pit_close_skipped_on_callback_error :
    (IndexPaginate.get_results idxC1 "ta_video" none
        (Kwargs.mk none false (some cbBoom) none none)).2
      = .error (.valueError "boom")
    ∧ numPitClose (IndexPaginate.get_results idxC1 "ta_video" none
        (Kwargs.mk none false (some cbBoom) none none)).1 = 0
    ∧ numPitOpen (IndexPaginate.get_results idxC1 "ta_video" none
        (Kwargs.mk none false (some cbBoom) none none)).1 = 1
    ∧ numSearchCalls (IndexPaginate.get_results idxC1 "ta_video" none
        (Kwargs.mk none false (some cbBoom) none none)).1 = 1 := by
  refine ⟨rfl, rfl, rfl, rfl⟩

/-- C3: with a non-success store response, a `put` raises the fatal
`ValueError` having issued exactly its one HTTP request and no more, while
a `delete` just returns the `(body, status)` tuple of its one request. -/
theorem C3_put_raises_delete_returns (w w2 : ElasticWrap)
    (http http2 : HttpRequest → Response) (d d2 : PyData) (r r2 : Bool)
    (h1 : ∀ rq, 400 ≤ (http rq).status) (h2 : ∀ rq, 400 ≤ (http2 rq).status) :
    (ElasticWrap.put w http d r).result = .error "failed to add item to index"
    ∧ (ElasticWrap.put w http d r).requests.length = 1
    ∧ (ElasticWrap.delete w2 http2 d2 r2).requests.length = 1
    ∧ ∀ rq ∈ (ElasticWrap.delete w2 http2 d2 r2).requests,
        (ElasticWrap.delete w2 http2 d2 r2).result =
          Except.ok ((http2 rq).text, (http2 rq).status) := by
  have hok : ∀ rq, (http rq).ok = false := by
    intro rq
    have := h1 rq
    simp [Response.ok]
    omega
  refine ⟨?_, ?_, ?_, ?_⟩
  · simp [ElasticWrap.put, hok]
  · simp [ElasticWrap.put, hok]
  · simp [ElasticWrap.delete]
  · intro rq hrq
    simp only [ElasticWrap.delete, List.mem_singleton] at hrq
    subst hrq
    simp [ElasticWrap.delete]

theorem C3_witness :
    (ElasticWrap.put wrapT httpErr (PyData.dict [("k", "v")]) false).result
        = .error "failed to add item to index"
    ∧ (ElasticWrap.put wrapT httpErr (PyData.dict [("k", "v")]) false).requests.length = 1
    ∧ (ElasticWrap.delete wrapT httpErr PyData.none_ false).requests.length = 1 :=
  have h := C3_put_raises_delete_returns wrapT wrapT httpErr httpErr
    (PyData.dict [("k", "v")]) PyData.none_ false false
    (fun rq => by simp [httpErr]) (fun rq => by simp [httpErr])
  ⟨h.1, h.2.1, h.2.2.1⟩

/-- C4 (counterexample): `put` and `delete` with `refresh=True` rewrite
`self.url` in place, so the endpoint descriptor is not left unchanged and
a second call on the same instance targets a different URL. -/
theorem C4_counterexample_refresh_mutates_url :
    (ElasticWrap.put wrapT httpOk (PyData.dict [("k", "v")]) true).self.url ≠ wrapT.url
    ∧ (ElasticWrap.delete wrapT httpOk PyData.none_ true).self.url ≠ wrapT.url := by
  decide

/-- C4 (amended): `get` and `post` never touch the stored descriptor, and
`put`/`delete` leave it unchanged exactly when `refresh` is false; with
`refresh=True` they permanently append `"/?refresh=true"` to the stored
URL (credentials are never changed). -/
theorem C4_url_mutation_only_on_refresh (w : ElasticWrap)
    (http : HttpRequest → Response) (d : PyData) (t : Nat) (pe nd : Bool) :
    (ElasticWrap.get w http d t pe).self = w
    ∧ (ElasticWrap.post w http d nd).self = w
    ∧ (ElasticWrap.put w http d false).self = w
    ∧ (ElasticWrap.delete w http d false).self = w
    ∧ (ElasticWrap.put w http d true).self =
        ElasticWrap.mk (w.url ++ "/?refresh=true") w.auth
    ∧ (ElasticWrap.delete w http d true).self =
        ElasticWrap.mk (w.url ++ "/?refresh=true") w.auth := by
  refine ⟨?_, ?_, ?_, ?_, ?_, ?_⟩ <;>
    simp [ElasticWrap.get, ElasticWrap.post, ElasticWrap.put, ElasticWrap.delete] <;>
    split <;> rfl

/-- C9: a falsy `data` argument (`False`, `None`, `{}`, also `""`) makes
`get`, `post` and `delete` issue a bodyless request, and the whole call is
indistinguishable from one with `data` omitted (`None`). -/
theorem C9_falsy_data_bodyless (w : ElasticWrap) (http : HttpRequest → Response)
    (d : PyData) (t : Nat) (pe nd r : Bool) (h : d.truthy = false) :
    ElasticWrap.get w http d t pe = ElasticWrap.get w http PyData.none_ t pe
    ∧ ((ElasticWrap.get w http d t pe).requests.all fun rq => rq.body.isNone) = true
    ∧ ElasticWrap.post w http d nd = ElasticWrap.post w http PyData.none_ nd
    ∧ ((ElasticWrap.post w http d nd).requests.all fun rq => rq.body.isNone) = true
    ∧ ElasticWrap.delete w http d r = ElasticWrap.delete w http PyData.none_ r
    ∧ ((ElasticWrap.delete w http d r).requests.all fun rq => rq.body.isNone) = true := by
  have hn : PyData.truthy PyData.none_ = false := rfl
  refine ⟨?_, ?_, ?_, ?_, ?_, ?_⟩ <;>
    simp [ElasticWrap.get, ElasticWrap.post, ElasticWrap.delete, h, hn]

theorem C9_witness :
    ElasticWrap.get wrapT httpOk (PyData.dict []) 10 true
        = ElasticWrap.get wrapT httpOk PyData.none_ 10 true
    ∧ ((ElasticWrap.post wrapT httpOk (PyData.dict []) false).requests.all
        fun rq => rq.body.isNone) = true
    ∧ ElasticWrap.delete wrapT httpOk (PyData.dict []) false
        = ElasticWrap.delete wrapT httpOk PyData.none_ false :=
  have h := C9_falsy_data_bodyless wrapT httpOk (PyData.dict []) 10 true false false rfl
  ⟨h.1, h.2.2.2.1, h.2.2.2.2.1⟩

/-- C2 (counterexample): for the concrete scenario — 1200 documents, page
size 500 — the scan issues 4 search calls (pages of 500, 500, 200 and a
final empty page), not the 3 the claim states, because the loop only stops
on an empty page. -/
theorem C2_counterexample_extra_search_call :
    numSearchCalls (IndexPaginate.get_results (ESIndex.mk bigHits "pit-big")
        "videos" none (Kwargs.mk (some 500) false none none none)).1 = 4
    ∧ ¬ numSearchCalls (IndexPaginate.get_results (ESIndex.mk bigHits "pit-big")
        "videos" none (Kwargs.mk (some 500) false none none none)).1 = 3
    ∧ ((searchEvents (IndexPaginate.get_results (ESIndex.mk bigHits "pit-big")
        "videos" none (Kwargs.mk (some 500) false none none none)).1).map
        fun x => x.2.length) = [500, 500, 200, 0] := by
  have hnd : (bigHits.map Hit.sort).Nodup := by
    have hmap : bigHits.map Hit.sort = (List.range 1200).map fun i => [i] := by
      simp [bigHits, List.map_map, Function.comp]
    rw [hmap]
    refine List.Nodup.map ?_ (List.nodup_range 1200)
    intro a b hab
    simpa using hab
  have h := get_results_complete bigHits "pit-big" "videos" (some 500) none false hnd
  have hlen : bigHits.length = 1200 := by simp [bigHits]
  have hsz : sizeOrDefault (some 500) = 500 := rfl
  refine ⟨?_, ?_, ?_⟩
  · rw [h.2.1, hlen, hsz]
    decide
  · rw [h.2.1, hlen, hsz]
    decide
  · rw [h.2.2.1, hlen, hsz]
    decide

/-- C2 (amended): for page size `P ≥ 1` over `N` documents with distinct
sort keys and no concurrent mutation, the scan returns exactly the `N`
documents in store order (no duplicates, no omissions), and issues exactly
`⌈N/P⌉ + 1` search calls — the extra one returning the empty page that
terminates the loop — alongside one PIT-open and one PIT-close; for
`N = 1200`, `P = 500` the pages are 500, 500, 200 and 0 hits. -/
theorem C2_scan_exhaustive (docs : List Hit) (pid name : String) (P : Nat)
    (b : Bool) (total : Option Nat)
    (hnd : (docs.map Hit.sort).Nodup) (hP : 0 < P) :
    (IndexPaginate.get_results (ESIndex.mk docs pid) name none
        (Kwargs.mk (some P) b none none total)).2 = .ok (docs.map (itemOf b))
    ∧ numSearchCalls (IndexPaginate.get_results (ESIndex.mk docs pid) name none
        (Kwargs.mk (some P) b none none total)).1 = natCeilDiv docs.length P + 1
    ∧ ((searchEvents (IndexPaginate.get_results (ESIndex.mk docs pid) name none
        (Kwargs.mk (some P) b none none total)).1).map fun x => x.2.length) =
      pageSizes P docs.length
    ∧ numPitOpen (IndexPaginate.get_results (ESIndex.mk docs pid) name none
        (Kwargs.mk (some P) b none none total)).1 = 1
    ∧ numPitClose (IndexPaginate.get_results (ESIndex.mk docs pid) name none
        (Kwargs.mk (some P) b none none total)).1 = 1 := by
  have hsz : sizeOrDefault (some P) = P := by
    simp only [sizeOrDefault]
    split
    · omega
    · rfl
  have h := get_results_complete docs pid name (some P) total b hnd
  rw [hsz] at h
  exact h

/-- C2 witness at a concrete instance: 3 documents, page size 2. -/
theorem C2_scan_exhaustive_witness :
    (IndexPaginate.get_results (ESIndex.mk tHits "pit-w") "videos" none
        (Kwargs.mk (some 2) false none none none)).2 =
      .ok [ScanItem.src "sa", ScanItem.src "sb", ScanItem.src "sc"]
    ∧ numSearchCalls (IndexPaginate.get_results (ESIndex.mk tHits "pit-w") "videos" none
        (Kwargs.mk (some 2) false none none none)).1 = natCeilDiv 3 2 + 1 :=
  have h := C2_scan_exhaustive tHits "pit-w" "videos" 2 false none
    (by decide) (by decide)
  ⟨h.1, h.2.1⟩

/-- C7: scanning an empty index returns the empty result list as a normal
outcome after exactly one search call, while both the PIT-open and the
PIT-close calls are still issued. -/
theorem C7_empty_index_scan (idx : ESIndex) (name : String)
    (data : Option Payload) (kw : Kwargs) (h : idx.docs = []) :
    (IndexPaginate.get_results idx name data kw).2 = .ok []
    ∧ numSearchCalls (IndexPaginate.get_results idx name data kw).1 = 1
    ∧ numPitOpen (IndexPaginate.get_results idx name data kw).1 = 1
    ∧ numPitClose (IndexPaginate.get_results idx name data kw).1 = 1 := by
  obtain ⟨docs, pid⟩ := idx
  have hd : docs = [] := h
  subst hd
  have hresp : searchResponse (ESIndex.mk [] pid)
      (IndexPaginate.validate_data kw pid data) = [] := by
    simp [searchResponse, searchAfterHits_nil]
  have hrun : run_loop_go (ESIndex.mk [] pid) kw name 1
      (IndexPaginate.validate_data kw pid data) [] 0 =
      ([ScanEvent.searchCall (IndexPaginate.validate_data kw pid data) []], .ok []) := by
    simp [run_loop_go, hresp]
  have hget := get_results_eq_ok (ESIndex.mk [] pid) name data kw _ _ hrun
  rw [hget]
  refine ⟨rfl, rfl, rfl, rfl⟩

theorem C7_empty_index_scan_witness :
    (IndexPaginate.get_results (ESIndex.mk [] "pit-e") "ta_video" none
        (Kwargs.mk none false none none none)).2 = .ok []
    ∧ numSearchCalls (IndexPaginate.get_results (ESIndex.mk [] "pit-e") "ta_video" none
        (Kwargs.mk none false none none none)).1 = 1 :=
  have h := C7_empty_index_scan (ESIndex.mk [] "pit-e") "ta_video" none
    (Kwargs.mk none false none none none) rfl
  ⟨h.1, h.2.1⟩

/-- One unfolded step of the loop on a non-empty page whose side effects
raise. -/
lemma run_loop_go_error_step (idx : ESIndex) (kw : Kwargs) (name : String)
    (fuel : Nat) (data : Payload) (acc : List ScanItem) (cnt : Nat)
    (r : Hit) (t : List Hit) (e : PyError)
    (hne : searchResponse idx data = r :: t)
    (hse : stepEffects kw name (r :: t)
      (acc ++ (r :: t).map (itemOf kw.keep_source)).length = .error e) :
    run_loop_go idx kw name (fuel + 1) data acc cnt =
      ([ScanEvent.searchCall data (r :: t)], .error e) := by
  simp only [run_loop_go, hne, hse, List.isEmpty_cons, Bool.false_eq_true, if_false]

/-- C10: supplying `task` without a usable `total` aborts the scan on the
first non-empty page with an unhandled error (`TypeError` for a missing
total, `ZeroDivisionError` for total 0) and no results are returned: a
scan with a task has the precondition that `total` is a non-zero number. -/
theorem C10_task_requires_total (docs : List Hit) (pid name : String)
    (sz : Option Nat) (b : Bool) (h : docs ≠ []) :
    (IndexPaginate.get_results (ESIndex.mk docs pid) name none
        (Kwargs.mk sz b none (some ()) none)).2 = .error .typeError
    ∧ (IndexPaginate.get_results (ESIndex.mk docs pid) name none
        (Kwargs.mk sz b none (some ()) (some 0))).2 = .error .zeroDivisionError := by
  cases docs with
  | nil => exact absurd rfl h
  | cons d ds => ?_
  obtain ⟨q, hq⟩ : ∃ q, sizeOrDefault sz = q + 1 :=
    ⟨sizeOrDefault sz - 1, by have := sizeOrDefault_pos sz; omega⟩
  constructor
  · set kw : Kwargs := Kwargs.mk sz b none (some ()) none with hkw
    have hresp : searchResponse (ESIndex.mk (d :: ds) pid)
        (IndexPaginate.validate_data kw pid none) = d :: ds.take q := by
      simp [searchResponse, validate_data_none, searchAfterHits, hq,
        List.take_succ_cons]
    have hse : stepEffects kw name (d :: ds.take q)
        (([] : List ScanItem) ++ (d :: ds.take q).map (itemOf kw.keep_source)).length
        = .error .typeError := rfl
    have hrun := run_loop_go_error_step (ESIndex.mk (d :: ds) pid) kw name
      (ds.length + 1) (IndexPaginate.validate_data kw pid none) [] 0
      d (ds.take q) .typeError hresp hse
    have hget := get_results_eq_error (ESIndex.mk (d :: ds) pid) name none kw _ _ hrun
    rw [hget]
  · set kw : Kwargs := Kwargs.mk sz b none (some ()) (some 0) with hkw
    have hresp : searchResponse (ESIndex.mk (d :: ds) pid)
        (IndexPaginate.validate_data kw pid none) = d :: ds.take q := by
      simp [searchResponse, validate_data_none, searchAfterHits, hq,
        List.take_succ_cons]
    have hse : stepEffects kw name (d :: ds.take q)
        (([] : List ScanItem) ++ (d :: ds.take q).map (itemOf kw.keep_source)).length
        = .error .zeroDivisionError := rfl
    have hrun := run_loop_go_error_step (ESIndex.mk (d :: ds) pid) kw name
      (ds.length + 1) (IndexPaginate.validate_data kw pid none) [] 0
      d (ds.take q) .zeroDivisionError hresp hse
    have hget := get_results_eq_error (ESIndex.mk (d :: ds) pid) name none kw _ _ hrun
    rw [hget]

theorem C10_task_requires_total_witness :
    (IndexPaginate.get_results (ESIndex.mk tHits "pit-w") "ta_video" none
        (Kwargs.mk none false none (some ()) none)).2 = .error .typeError :=
  (C10_task_requires_total tHits "pit-w" "ta_video" none false (by decide)).1

/-- C5: `validate_data` defaults an absent `query` to match-all and an
absent `sort` to descending `_doc` order; `size` is the `size` kwarg when
truthy and `DEFAULT_SIZE` (500) when absent or falsy; and every search
call of a scan carries the scan's PIT id in its payload. -/
theorem C5_validate_data_defaults (kw : Kwargs) (pit_id : String)
    (data : Option Payload) (idx : ESIndex) (name : String) :
    ((data.getD emptyPayload).query = none →
      (IndexPaginate.validate_data kw pit_id data).query = some QueryC.match_all)
    ∧ ((data.getD emptyPayload).sort = none →
      (IndexPaginate.validate_data kw pit_id data).sort = some SortC.docDesc)
    ∧ (∀ n, kw.size = some n → n ≠ 0 →
      (IndexPaginate.validate_data kw pit_id data).size = some n)
    ∧ ((kw.size = none ∨ kw.size = some 0) →
      (IndexPaginate.validate_data kw pit_id data).size =
        some IndexPaginate.DEFAULT_SIZE)
    ∧ (IndexPaginate.validate_data kw pit_id data).pit = some (pit_id, "10m")
    ∧ (∀ pl hs, (pl, hs) ∈ searchEvents
          (IndexPaginate.get_results idx name data kw).1 →
        pl.pit = some (idx.pitId, "10m")) := by
  have hsize : (IndexPaginate.validate_data kw pit_id data).size =
      some (sizeOrDefault kw.size) := rfl
  refine ⟨?_, ?_, ?_, ?_, rfl, ?_⟩
  · intro hq
    simp [IndexPaginate.validate_data, hq]
    split <;> rfl
  · intro hs
    simp only [IndexPaginate.validate_data, hs]
    split <;> simp [hs]
  · intro n hn hnz
    rw [hsize, hn]
    simp [sizeOrDefault, hnz]
  · intro hor
    rcases hor with hn | hn <;> rw [hsize, hn] <;> rfl
  · intro pl hs hmem
    obtain ⟨evs, res, heq⟩ : ∃ evs res, run_loop_go idx kw name
        (idx.docs.length + 1)
        (IndexPaginate.validate_data kw idx.pitId data) [] 0 = (evs, res) :=
      ⟨_, _, rfl⟩
    have hinv := run_loop_go_payload_inv idx kw name (idx.docs.length + 1)
      (IndexPaginate.validate_data kw idx.pitId data) [] 0 pl hs
    rw [heq] at hinv
    cases res with
    | ok out =>
        rw [get_results_eq_ok idx name data kw evs out heq] at hmem
        simp only [searchEvents_cons_pitOpen, searchEvents_append,
          searchEvents_cons_pitClose, searchEvents_nil, List.append_nil] at hmem
        exact (hinv hmem).1
    | error e =>
        rw [get_results_eq_error idx name data kw evs e heq] at hmem
        simp only [searchEvents_cons_pitOpen] at hmem
        exact (hinv hmem).1

theorem C5_validate_data_defaults_witness :
    (IndexPaginate.validate_data (Kwargs.mk none false none none none) "p5" none).query
        = some QueryC.match_all
    ∧ (IndexPaginate.validate_data (Kwargs.mk none false none none none) "p5" none).sort
        = some SortC.docDesc
    ∧ (IndexPaginate.validate_data (Kwargs.mk none false none none none) "p5" none).size
        = some IndexPaginate.DEFAULT_SIZE
    ∧ (IndexPaginate.validate_data (Kwargs.mk (some 3) false none none none) "p5" none).size
        = some 3 :=
  have h1 := C5_validate_data_defaults (Kwargs.mk none false none none none)
    "p5" none tIdx "ta_video"
  have h2 := C5_validate_data_defaults (Kwargs.mk (some 3) false none none none)
    "p5" none tIdx "ta_video"
  ⟨h1.1 rfl, h1.2.1 rfl, h1.2.2.2.1 (Or.inl rfl), h2.2.2.1 3 rfl (by decide)⟩

/-- C8: within one scan, every search after a non-empty page carries
`search_after` equal to the sort key of that page's last hit, and the
returned sequence is exactly the concatenation of the returned pages in
store order — no hit fabricated, dropped or reordered. -/
theorem C8_cursor_chain_and_concatenation (idx : ESIndex) (name : String)
    (data : Option Payload) (kw : Kwargs) :
    chainFrom (searchEvents (IndexPaginate.get_results idx name data kw).1) = true
    ∧ ∀ out, (IndexPaginate.get_results idx name data kw).2 = .ok out →
        out = ((searchEvents (IndexPaginate.get_results idx name data kw).1).map
          fun x => x.2).flatten.map (itemOf kw.keep_source) := by
  obtain ⟨evs, res, heq⟩ : ∃ evs res, run_loop_go idx kw name
      (idx.docs.length + 1)
      (IndexPaginate.validate_data kw idx.pitId data) [] 0 = (evs, res) :=
    ⟨_, _, rfl⟩
  have htr := run_loop_go_trace idx kw name (idx.docs.length + 1)
    (IndexPaginate.validate_data kw idx.pitId data) [] 0
  rw [heq] at htr
  cases res with
  | ok out0 =>
      rw [get_results_eq_ok idx name data kw evs out0 heq]
      constructor
      · simp only [searchEvents_cons_pitOpen, searchEvents_append,
          searchEvents_cons_pitClose, searchEvents_nil, List.append_nil]
        exact htr.2.1
      · intro out hout
        simp only [Except.ok.injEq] at hout
        subst hout
        simp only [searchEvents_cons_pitOpen, searchEvents_append,
          searchEvents_cons_pitClose, searchEvents_nil, List.append_nil]
        have := htr.2.2 out0 rfl
        simpa using this
  | error e =>
      rw [get_results_eq_error idx name data kw evs e heq]
      constructor
      · simp only [searchEvents_cons_pitOpen]
        exact htr.2.1
      · intro out hout
        exact absurd hout (by simp)

theorem C8_cursor_chain_witness :
    chainFrom (searchEvents (IndexPaginate.get_results tIdx "ta_video" none
        (Kwargs.mk (some 2) false none none none)).1) = true
    ∧ (IndexPaginate.get_results tIdx "ta_video" none
        (Kwargs.mk (some 2) false none none none)).2 =
      .ok (((searchEvents (IndexPaginate.get_results tIdx "ta_video" none
        (Kwargs.mk (some 2) false none none none)).1).map
          fun x => x.2).flatten.map (itemOf false)) :=
  have h := C8_cursor_chain_and_concatenation tIdx "ta_video" none
    (Kwargs.mk (some 2) false none none none)
  ⟨h.1, by
    have h2 := h.2 [ScanItem.src "sa", ScanItem.src "sb", ScanItem.src "sc"] rfl
    have hres : (IndexPaginate.get_results tIdx "ta_video" none
        (Kwargs.mk (some 2) false none none none)).2 =
        .ok [ScanItem.src "sa", ScanItem.src "sb", ScanItem.src "sc"] := rfl
    rw [hres, h2]⟩

lemma itemOf_true : itemOf true = ScanItem.full := by
  funext h
  simp [itemOf]

lemma itemOf_false : itemOf false = fun h => ScanItem.src h.source := by
  funext h
  simp [itemOf]

/-- C6: `keep_source` changes only the shape of the returned items, not
which hits are returned or their order: the two scans issue identical
traces, and on success the `keep_source=true` result is the raw hit
envelopes of the concatenated pages while the `keep_source=false` result
is their `_source` fields, both in store order. -/
theorem C6_keep_source_shape (idx : ESIndex) (name : String)
    (data : Option Payload) (sz : Option Nat)
    (cb : Option (List Hit → String → Except PyError Unit))
    (task : Option Unit) (total : Option Nat) :
    (IndexPaginate.get_results idx name data (Kwargs.mk sz true cb task total)).1 =
      (IndexPaginate.get_results idx name data (Kwargs.mk sz false cb task total)).1
    ∧ (∀ out, (IndexPaginate.get_results idx name data
          (Kwargs.mk sz true cb task total)).2 = .ok out →
        out = ((searchEvents (IndexPaginate.get_results idx name data
          (Kwargs.mk sz true cb task total)).1).map
            fun x => x.2).flatten.map ScanItem.full)
    ∧ (∀ out, (IndexPaginate.get_results idx name data
          (Kwargs.mk sz false cb task total)).2 = .ok out →
        out = ((searchEvents (IndexPaginate.get_results idx name data
          (Kwargs.mk sz false cb task total)).1).map
            fun x => x.2).flatten.map fun h => ScanItem.src h.source) := by
  obtain ⟨evsT, resT, heqT⟩ : ∃ evs res, run_loop_go idx
      (Kwargs.mk sz true cb task total) name (idx.docs.length + 1)
      (IndexPaginate.validate_data (Kwargs.mk sz true cb task total)
        idx.pitId data) [] 0 = (evs, res) := ⟨_, _, rfl⟩
  obtain ⟨evsF, resF, heqF⟩ : ∃ evs res, run_loop_go idx
      (Kwargs.mk sz false cb task total) name (idx.docs.length + 1)
      (IndexPaginate.validate_data (Kwargs.mk sz false cb task total)
        idx.pitId data) [] 0 = (evs, res) := ⟨_, _, rfl⟩
  have heqF' : run_loop_go idx (Kwargs.mk sz false cb task total) name
      (idx.docs.length + 1)
      (IndexPaginate.validate_data (Kwargs.mk sz true cb task total)
        idx.pitId data) [] 0 = (evsF, resF) := heqF
  have hks := run_loop_go_keep_source idx name sz cb task total true false
    (idx.docs.length + 1)
    (IndexPaginate.validate_data (Kwargs.mk sz true cb task total)
      idx.pitId data) [] [] 0 rfl
  rw [heqT, heqF'] at hks
  have htrT := run_loop_go_trace idx (Kwargs.mk sz true cb task total) name
    (idx.docs.length + 1)
    (IndexPaginate.validate_data (Kwargs.mk sz true cb task total)
      idx.pitId data) [] 0
  rw [heqT] at htrT
  have htrF := run_loop_go_trace idx (Kwargs.mk sz false cb task total) name
    (idx.docs.length + 1)
    (IndexPaginate.validate_data (Kwargs.mk sz false cb task total)
      idx.pitId data) [] 0
  rw [heqF] at htrF
  dsimp only at hks htrT htrF
  cases resT with
  | ok outT =>
      cases resF with
      | error e => exact absurd ((hks.2 e).mpr rfl) (by simp)
      | ok outF =>
          rw [get_results_eq_ok idx name data (Kwargs.mk sz true cb task total)
            evsT outT heqT,
            get_results_eq_ok idx name data (Kwargs.mk sz false cb task total)
            evsF outF heqF]
          refine ⟨by rw [hks.1], ?_, ?_⟩
          · intro out hout
            simp only [Except.ok.injEq] at hout
            subst hout
            simp only [searchEvents_cons_pitOpen, searchEvents_append,
              searchEvents_cons_pitClose, searchEvents_nil, List.append_nil]
            have hT := htrT.2.2 outT rfl
            rw [← itemOf_true]
            simpa using hT
          · intro out hout
            simp only [Except.ok.injEq] at hout
            subst hout
            simp only [searchEvents_cons_pitOpen, searchEvents_append,
              searchEvents_cons_pitClose, searchEvents_nil, List.append_nil]
            have hF := htrF.2.2 outF rfl
            rw [← itemOf_false]
            simpa using hF
  | error e =>
      have hresF : resF = .error e := (hks.2 e).mp rfl
      subst hresF
      rw [get_results_eq_error idx name data (Kwargs.mk sz true cb task total)
        evsT e heqT,
        get_results_eq_error idx name data (Kwargs.mk sz false cb task total)
        evsF e heqF]
      refine ⟨by rw [hks.1], ?_, ?_⟩
      · intro out hout
        exact absurd hout (by simp)
      · intro out hout
        exact absurd hout (by simp)

theorem C6_keep_source_shape_witness :
    (IndexPaginate.get_results tIdx "ta_video" none
        (Kwargs.mk (some 2) true none none none)).1 =
      (IndexPaginate.get_results tIdx "ta_video" none
        (Kwargs.mk (some 2) false none none none)).1
    ∧ (IndexPaginate.get_results tIdx "ta_video" none
        (Kwargs.mk (some 2) true none none none)).2 =
      .ok (((searchEvents (IndexPaginate.get_results tIdx "ta_video" none
        (Kwargs.mk (some 2) true none none none)).1).map
          fun x => x.2).flatten.map ScanItem.full) :=
  have h := C6_keep_source_shape tIdx "ta_video" none (some 2) none none none
  ⟨h.1, by
    have h2 := h.2.1 [ScanItem.full (Hit.mk "a" "sa" [0]),
      ScanItem.full (Hit.mk "b" "sb" [1]), ScanItem.full (Hit.mk "c" "sc" [2])] rfl
    have hres : (IndexPaginate.get_results tIdx "ta_video" none
        (Kwargs.mk (some 2) true none none none)).2 =
        .ok [ScanItem.full (Hit.mk "a" "sa" [0]),
          ScanItem.full (Hit.mk "b" "sb" [1]), ScanItem.full (Hit.mk "c" "sc" [2])] := rfl
    rw [hres, h2]⟩
